import Mathlib

/-!
Verification development for the JantzCard deck synchronization and
scheduling engine.  The definitions below are a shallow embedding of the
TypeScript sources: `src/services/sheetService.ts` (remote store adapter),
`src/hooks/useStudyQueue.ts` (scheduler), the deck manager hook and the
interval helper from the unnamed sources.  Spreadsheet cells are modelled
as optional strings, JS epoch timestamps as integers (with `none` playing
the role of `NaN`), and JS floating point scores as rationals.
-/

namespace JantzCard

/-- A spreadsheet cell as surfaced by the Sheets values API: absent
(`none`, the JS `undefined`) or a string value.  Numeric cells are
modelled by their decimal rendering, matching the `String(x)` coercions
the source applies before every comparison. -/
abbrev Cell := Option String

/-- One data row of the sheet (row index 0 is sheet row 2). -/
abbrev Row := List Cell

/-- `row[i]`: out-of-range access yields `undefined`. -/
def getCell (row : Row) (i : Nat) : Cell := row.getD i none

/-- `getVal(colIdx)`: `colIdx !== undefined ? row[colIdx] : undefined`. -/
def getValOpt (row : Row) (c : Option Nat) : Cell :=
  match c with
  | some i => getCell row i
  | none => none

/-- JS truthiness of a string-valued cell: `undefined` and the empty
string are falsy. -/
def truthy : Cell → Bool
  | none => false
  | some s => !(s == "")

/-- `String(x)` applied to a cell. -/
def jsString : Cell → String
  | none => "undefined"
  | some s => s

/-- `String(x ?? "")` applied to a cell. -/
def jsStringOrEmpty : Cell → String
  | none => ""
  | some s => s

/-- `x || d` for a string-valued cell with a string default. -/
def jsOr (c : Cell) (d : String) : String :=
  match c with
  | none => d
  | some s => if s == "" then d else s

/-- `x || null` for a string-valued cell. -/
def jsOrNull (c : Cell) : Option String :=
  match c with
  | none => none
  | some s => if s == "" then none else some s

/-- `s.trim()`: strip leading and trailing whitespace.  Implemented
structurally over the character list so that it reduces inside the
kernel (the library `String.trim` is defined by well-founded recursion
over byte positions and does not). -/
def jsTrim (s : String) : String :=
  ⟨((s.data.dropWhile Char.isWhitespace).reverse.dropWhile Char.isWhitespace).reverse⟩

/-- JS `a >= b` on epoch values obtained from `new Date(s).getTime()`:
`none` models `NaN`, and every comparison involving `NaN` is false. -/
def jsGE : Option Int → Option Int → Bool
  | some a, some b => decide (b ≤ a)
  | _, _ => false

/-- `new Date(x).getTime()` on a cell, for a given date parser
(`none` models an unparseable date, i.e. `NaN`). -/
def jsDateTime (dateTime : String → Option Int) : Cell → Option Int
  | some s => dateTime s
  | none => none

/-- `Number.MAX_SAFE_INTEGER`. -/
def maxSafeInteger : Int := 9007199254740991

/-- JS `parseInt` on a cell: `undefined` gives `NaN` (`none`); a string is
stripped of leading whitespace, an optional sign is read, then the longest
digit prefix; no digits means `NaN`.  (The hexadecimal prefix form of
`parseInt` is not modelled; no sheet value in scope uses it.) -/
def parseIntJS (c : Cell) : Option Int :=
  match c with
  | none => none
  | some s =>
    let digitsVal : List Char → Option Nat := fun cs =>
      let ds := cs.takeWhile (·.isDigit)
      if ds.isEmpty then none
      else some (ds.foldl (fun a ch => a * 10 + (ch.toNat - 48)) 0)
    match s.toList.dropWhile (·.isWhitespace) with
    | '-' :: rest => (digitsVal rest).map (fun n => -(n : Int))
    | '+' :: rest => (digitsVal rest).map (fun n => (n : Int))
    | cs => (digitsVal cs).map (fun n => (n : Int))

/-- The `Card` record of `src/types.ts`. -/
structure Card where
  id : String
  front : String
  back : String
  category : String
  currentStudyInterval : Option String
  lastSeen : Option String
  priorityLevel : Int
  updatedAt : Option String := none
  status : Option String := none
deriving Repr, DecidableEq

/-- The `PendingCardUpdate` record of `src/services/sheetService.ts`. -/
structure PendingCardUpdate where
  id : String
  lastSeen : Option String
  currentStudyInterval : Option String
  updatedAt : Option String := none
deriving Repr, DecidableEq

/-- The `ColumnMapping` record of `src/services/sheetService.ts`; the
`lastSeen` field models the source key `Last Seen`. -/
structure ColumnMapping where
  Front : Nat
  Back : Nat
  Category : Option Nat := none
  Priority : Option Nat := none
  lastSeen : Option Nat := none
  Interval : Option Nat := none
  Status : Option Nat := none
  ID : Option Nat := none
  Updated : Option Nat := none
deriving Repr, DecidableEq

/-- Index of the last header whose trimmed text equals `name`.  The source
builds a dictionary by `mapping[header.trim()] = index` over the header
row in order, so a later duplicate header overwrites an earlier one. -/
def headerIndex (headers : List String) (name : String) : Option Nat :=
  ((headers.enum.filter (fun p => jsTrim p.2 == name)).map (·.1)).getLast?

/-- `getColumnMapping` of `sheetService.ts`: trimmed, exact (and in fact
case-sensitive) header lookup; `Front` and `Back` are required.  Error
strings are abbreviated; only their presence matters here. -/
def getColumnMapping (headers : List String) : Except String ColumnMapping :=
  if headers.isEmpty then
    .error "missing headers in Row 1"
  else
    match headerIndex headers "Front", headerIndex headers "Back" with
    | some f, some b =>
      .ok { Front := f, Back := b,
            Category := headerIndex headers "Category",
            Priority := headerIndex headers "Priority",
            lastSeen := headerIndex headers "Last Seen",
            Interval := headerIndex headers "Interval",
            Status := headerIndex headers "Status",
            ID := headerIndex headers "ID",
            Updated := headerIndex headers "Updated" }
    | _, _ => .error "missing required columns"

/-- One single-cell write of a `values.batchUpdate` payload:
`Deck!<col><row>` rendered as the zero-based column index plus the
one-based sheet row number. -/
structure CellWrite where
  col : Nat
  row : Nat
  value : Option String
deriving Repr, DecidableEq

/-- The `addUpdate` helper of `updateCardInSheet` and `batchUpdateCards`:
push a single-cell write when the column exists in the schema. -/
def addUpdate (c : Option Nat) (rowNumber : Nat) (v : Option String) : List CellWrite :=
  match c with
  | some col => [⟨col, rowNumber, v⟩]
  | none => []

/-- Predicate for the ID search of `findRowForCard`:
`String(row[idIndex]) === String(card.id)` (only when the schema has an
ID column). -/
def matchesById (m : ColumnMapping) (cardId : String) (row : Row) : Bool :=
  match m.ID with
  | some idIdx => jsString (getCell row idIdx) == cardId
  | none => false

/-- Predicate for the content fallback search of `findRowForCard`:
trimmed `(front, back)` equality. -/
def matchesByContent (m : ColumnMapping) (card : Card) (row : Row) : Bool :=
  (jsTrim (jsStringOrEmpty (getCell row m.Front)) == jsTrim card.front) &&
  (jsTrim (jsStringOrEmpty (getCell row m.Back)) == jsTrim card.back)

/-- `findRowForCard` of `sheetService.ts`: search by exact string ID when
the schema has an ID column, else (or on no match) fall back to trimmed
`(front, back)` content; returns the one-based sheet row number
(data starts at row 2). -/
def findRowForCard (m : ColumnMapping) (rows : List Row) (card : Card) : Option Nat :=
  match m.ID with
  | some idIdx =>
    match rows.findIdx? (fun row => jsString (getCell row idIdx) == card.id) with
    | some i => some (i + 2)
    | none => (rows.findIdx? (matchesByContent m card)).map (· + 2)
  | none => (rows.findIdx? (matchesByContent m card)).map (· + 2)

/-- The errors `updateCardInSheet` can signal in this model
(`RowNotFoundError` in the source). -/
inductive SheetWriteError where
  | rowNotFound
deriving Repr, DecidableEq

/-- The data row backing one-based sheet row `rowNumber`. -/
def getSheetRow (rows : List Row) (rowNumber : Nat) : Row :=
  rows.getD (rowNumber - 2) []

/-- The cell writes `updateCardInSheet` issues once a row is located:
whichever of `Last Seen`, `Interval`, `Status` (defaulting to `Active`),
`ID` and `Updated` columns are present in the schema. -/
def cardWrites (m : ColumnMapping) (rowNumber : Nat) (card : Card) : List CellWrite :=
  addUpdate m.lastSeen rowNumber card.lastSeen ++
  addUpdate m.Interval rowNumber card.currentStudyInterval ++
  addUpdate m.Status rowNumber (some (jsOr card.status "Active")) ++
  addUpdate m.ID rowNumber (some card.id) ++
  addUpdate m.Updated rowNumber card.updatedAt

/-- `updateCardInSheet` of `sheetService.ts`, modelled as a function from
the current sheet contents to the list of issued single-cell writes.
The row is located via `findRowForCard` (absence raises
`RowNotFoundError`); when the schema has an `Updated` column and both the
remote cell and the local `updatedAt` are truthy and the remote epoch is
`>=` the local epoch (`NaN` comparisons false), the write is skipped. -/
def updateCardInSheet (dateTime : String → Option Int) (m : ColumnMapping)
    (rows : List Row) (card : Card) : Except SheetWriteError (List CellWrite) :=
  match findRowForCard m rows card with
  | none => .error .rowNotFound
  | some rowNumber =>
    let shouldUpdate :=
      match m.Updated with
      | none => true
      | some uc =>
        let remoteUpdated := getCell (getSheetRow rows rowNumber) uc
        if truthy remoteUpdated && truthy card.updatedAt then
          !(jsGE (jsDateTime dateTime remoteUpdated) (jsDateTime dateTime card.updatedAt))
        else true
    if shouldUpdate then .ok (cardWrites m rowNumber card) else .ok []

/-- The contribution of one `PendingCardUpdate` to the batch payload of
`batchUpdateCards`: the row is located by ID only (no content fallback,
an absent row is silently skipped); the conflict check mirrors the single
write; the written columns are `Last Seen`, `Interval`, `ID`, `Updated`. -/
def batchItemData (dateTime : String → Option Int) (m : ColumnMapping)
    (rows : List Row) (update : PendingCardUpdate) : List CellWrite :=
  let rowIndex :=
    match m.ID with
    | some ic => rows.findIdx? (fun row => jsString (getCell row ic) == update.id)
    | none => none
  match rowIndex with
  | none => []
  | some i =>
    let shouldUpdate :=
      match m.Updated with
      | none => true
      | some uc =>
        if truthy update.updatedAt then
          let remoteUpdated := getCell (rows.getD i []) uc
          if truthy remoteUpdated then
            !(jsGE (jsDateTime dateTime remoteUpdated) (jsDateTime dateTime update.updatedAt))
          else true
        else true
    if shouldUpdate then
      addUpdate m.lastSeen (i + 2) update.lastSeen ++
      addUpdate m.Interval (i + 2) update.currentStudyInterval ++
      addUpdate m.ID (i + 2) (some update.id) ++
      addUpdate m.Updated (i + 2) update.updatedAt
    else []

/-- `batchUpdateCards` of `sheetService.ts`: the concatenated single-cell
writes contributed by each pending update, issued in one remote call. -/
def batchUpdateCards (dateTime : String → Option Int) (m : ColumnMapping)
    (rows : List Row) (updates : List PendingCardUpdate) : List CellWrite :=
  updates.flatMap (batchItemData dateTime m rows)

/-- The accumulator of the per-row loop of `loadCardsFromSheet`: the
per-call seen-ID set, the number of IDs generated so far (indexing the
generator), the queued ID write-backs and the cards built so far. -/
structure LoadState where
  seenIds : List String
  genCount : Nat
  updates : List CellWrite
  cards : List Card
deriving Repr, DecidableEq

/-- The ID assignment of one row of `loadCardsFromSheet`: keep a truthy
cell value, otherwise generate (`gen n` models the n-th call of
`generateUniqueId` in this invocation); then regenerate when the result
is already in the per-call seen set.  Returns the assigned id, whether a
write-back is needed, and the new generation counter. -/
def assignId (gen : Nat → String) (seenIds : List String) (genCount : Nat)
    (idCell : Cell) : String × Bool × Nat :=
  let step1 : String × Bool × Nat :=
    if truthy idCell then (jsString idCell, false, genCount)
    else (gen genCount, true, genCount + 1)
  if seenIds.contains step1.1 then (gen step1.2.2, true, step1.2.2 + 1)
  else step1

/-- One iteration of the `rows.forEach` loop of `loadCardsFromSheet`
(`p` is the zero-based row index paired with the row): skip rows with an
empty `Front`; assign the row id via `assignId`; queue a write-back of
the assigned ID when a regeneration happened and the schema has an ID
column; build the card. -/
def loadRowsStep (m : ColumnMapping) (gen : Nat → String) (st : LoadState)
    (p : Nat × Row) : LoadState :=
  let index := p.1
  let row := p.2
  let frontCell := getCell row m.Front
  if !truthy frontCell || (jsTrim (jsString frontCell) == "") then st
  else
    let idCell := getValOpt row m.ID
    let step2 := assignId gen st.seenIds st.genCount idCell
    let id := step2.1
    let needsUpdate := step2.2.1
    let genCount := step2.2.2
    let updates :=
      match m.ID with
      | some ic =>
        if needsUpdate then st.updates ++ [⟨ic, index + 2, some id⟩] else st.updates
      | none => st.updates
    let statusCell := getValOpt row m.Status
    let card : Card :=
      { id := id,
        front := jsOr frontCell "",
        back := jsOr (getCell row m.Back) "",
        category := jsOr (getValOpt row m.Category) "General",
        priorityLevel := (parseIntJS (getValOpt row m.Priority)).getD maxSafeInteger,
        lastSeen := jsOrNull (getValOpt row m.lastSeen),
        currentStudyInterval := jsOrNull (getValOpt row m.Interval),
        status := some (jsOr statusCell "Active"),
        updatedAt := getValOpt row m.Updated }
    { seenIds := id :: st.seenIds, genCount := genCount,
      updates := updates, cards := st.cards ++ [card] }

/-- The full `rows.forEach` loop of `loadCardsFromSheet`. -/
def loadRows (m : ColumnMapping) (rows : List Row) (gen : Nat → String) : LoadState :=
  rows.enum.foldl (loadRowsStep m gen) ⟨[], 0, [], []⟩

/-- `loadCardsFromSheet` of `sheetService.ts` after the column mapping and
data fetch: returns the loaded cards (rows with empty `Front` skipped,
rows whose `Status` is `Inactive` filtered out) together with the batched
ID write-backs queued during the scan. -/
def loadCardsFromSheet (m : ColumnMapping) (rows : List Row) (gen : Nat → String) :
    List Card × List CellWrite :=
  let st := loadRows m rows gen
  (st.cards.filter (fun c => truthy (some c.front) && !(c.status == some "Inactive")),
   st.updates)

/-- The cards `loadCardsFromSheet` hands back to its caller.  The batched
ID write-back is attempted before returning, but its outcome
(`writeBackSucceeds`) is caught and logged: the returned cards are the
same either way (failure to persist generated IDs is non-fatal). -/
def loadCardsFromSheetResult (m : ColumnMapping) (rows : List Row)
    (gen : Nat → String) (writeBackSucceeds : Bool) : List Card :=
  match writeBackSucceeds with
  | true => (loadCardsFromSheet m rows gen).1
  | false => (loadCardsFromSheet m rows gen).1

/-! ## Deck manager (`useDeckManager` hook) -/

/-- Conversion of a stranded or failed `Card` into its durable
`PendingCardUpdate` record, as in the deck manager. -/
def toPendingCardUpdate (c : Card) : PendingCardUpdate :=
  { id := c.id, lastSeen := c.lastSeen,
    currentStudyInterval := c.currentStudyInterval, updatedAt := c.updatedAt }

/-- The mount-time crash recovery of `useDeckManager`: given the parsed
durable backlog and the parsed durable Active Save Queue, return the new
backlog and the new Active Save Queue contents.  When the stranded queue
is non-empty, each stranded card is converted to a `PendingCardUpdate`,
backlog entries whose id matches a recovered entry are dropped, the
recovered entries are appended, and the Active Save Queue storage is
cleared. -/
def recoverStrandedQueue (initialBacklog : List PendingCardUpdate)
    (strandedItems : List Card) : List PendingCardUpdate × List Card :=
  if strandedItems.isEmpty then (initialBacklog, strandedItems)
  else
    let recoveredUpdates := strandedItems.map toPendingCardUpdate
    (initialBacklog.filter
        (fun b => !(recoveredUpdates.any (fun r => r.id == b.id))) ++ recoveredUpdates,
     [])

/-- The deck manager state touched by one iteration of `processSaveQueue`:
the in-memory FIFO save queue, its durable mirror, the durable pending
update backlog and the user-visible sync message. -/
structure DeckSyncState where
  saveQueue : List Card
  activeQueueStorage : List Card
  backlog : List PendingCardUpdate
  syncMessage : Option String
deriving Repr, DecidableEq

/-- Outcome of the remote write attempted for the head of the save queue:
success (with the outcome of the opportunistic backlog flush),
`RowNotFoundError`, or any other failure. -/
inductive SaveOutcome where
  | success (backlogFlushOk : Bool)
  | rowNotFound
  | otherFailure
deriving Repr, DecidableEq

/-- One iteration of the `while` loop of `processSaveQueue` for a sheet
deck, given the outcome of `updateCardInSheet` on the queue head.  On
success the head is popped and, when a backlog exists, a flush is
attempted (clearing the backlog when it succeeds).  On failure the head
is popped to unblock the queue; `RowNotFoundError` drops any matching
backlog entry and surfaces the skip message, any other failure converts
the card into (or replaces) a backlog entry. -/
def processSaveQueueStep (st : DeckSyncState) (outcome : SaveOutcome) : DeckSyncState :=
  match st.saveQueue with
  | [] => st
  | nextCard :: rest =>
    match outcome with
    | .success backlogFlushOk =>
      let st1 : DeckSyncState := { st with saveQueue := rest, activeQueueStorage := rest }
      if st.backlog.isEmpty then st1
      else if backlogFlushOk then { st1 with backlog := [] } else st1
    | .rowNotFound =>
      { st with
        saveQueue := rest
        activeQueueStorage := rest
        backlog := st.backlog.filter (fun p => !(p.id == nextCard.id))
        syncMessage := some "Sync skipped: Card deleted remotely." }
    | .otherFailure =>
      { st with
        saveQueue := rest
        activeQueueStorage := rest
        backlog := st.backlog.filter (fun p => !(p.id == nextCard.id)) ++
          [toPendingCardUpdate nextCard] }

/-! ## Interval catalog and scheduler -/

/-- The `StudyInterval` record of `src/types.ts`; durations in
milliseconds. -/
structure StudyInterval where
  label : String
  ms : Int
deriving Repr, DecidableEq

/-- `STUDY_INTERVALS` of `src/constants.ts`. -/
def STUDY_INTERVALS : List StudyInterval :=
  [⟨"1s", 1000⟩, ⟨"2s", 2 * 1000⟩, ⟨"5s", 5 * 1000⟩, ⟨"10s", 10 * 1000⟩,
   ⟨"30s", 30 * 1000⟩, ⟨"1m", 60 * 1000⟩, ⟨"2m", 2 * 60 * 1000⟩,
   ⟨"5m", 5 * 60 * 1000⟩, ⟨"10m", 10 * 60 * 1000⟩, ⟨"30m", 30 * 60 * 1000⟩,
   ⟨"1hr", 60 * 60 * 1000⟩, ⟨"3hr", 3 * 60 * 60 * 1000⟩,
   ⟨"6hr", 6 * 60 * 60 * 1000⟩, ⟨"12hr", 12 * 60 * 60 * 1000⟩,
   ⟨"1d", 24 * 60 * 60 * 1000⟩, ⟨"2d", 2 * 24 * 60 * 60 * 1000⟩,
   ⟨"4d", 4 * 24 * 60 * 60 * 1000⟩, ⟨"7d", 7 * 24 * 60 * 60 * 1000⟩,
   ⟨"2w", 14 * 24 * 60 * 60 * 1000⟩, ⟨"1mo", 30 * 24 * 60 * 60 * 1000⟩,
   ⟨"2mo", 2 * 30 * 24 * 60 * 60 * 1000⟩, ⟨"3mo", 3 * 30 * 24 * 60 * 60 * 1000⟩,
   ⟨"6mo", 6 * 30 * 24 * 60 * 60 * 1000⟩, ⟨"1yr", 365 * 24 * 60 * 60 * 1000⟩,
   ⟨"2yr", 2 * 365 * 24 * 60 * 60 * 1000⟩, ⟨"5yr", 5 * 365 * 24 * 60 * 60 * 1000⟩,
   ⟨"10yr", 10 * 365 * 24 * 60 * 60 * 1000⟩, ⟨"20yr", 20 * 365 * 24 * 60 * 60 * 1000⟩,
   ⟨"40yr", 40 * 365 * 24 * 60 * 60 * 1000⟩, ⟨"infinite", 9007199254740991⟩]

/-- `intervalMap.get(label)` of `useStudyQueue.ts`: the catalog duration
for a label (labels are unique, so first match equals the Map lookup). -/
def intervalMapGet (label : String) : Option Int :=
  (STUDY_INTERVALS.find? (fun i => i.label == label)).map (·.ms)

/-- `findClosestInterval` of the interval helper: the catalog label whose
duration minimizes the absolute distance to `elapsedMs`, excluding the
`infinite` sentinel, defaulting to the first interval for non-positive
input (the non-finite guard is vacuous on integers).  Strict improvement
only, so the earliest minimizer wins. -/
def findClosestInterval (elapsedMs : Int) : String :=
  let first := STUDY_INTERVALS.getD 0 ⟨"", 0⟩
  if elapsedMs ≤ 0 then first.label
  else
    (STUDY_INTERVALS.foldl
      (fun (acc : StudyInterval × Nat) interval =>
        if interval.label == "infinite" then acc
        else if (elapsedMs - interval.ms).natAbs < acc.2 then
          (interval, (elapsedMs - interval.ms).natAbs)
        else acc)
      (first, (elapsedMs - first.ms).natAbs)).1.label

/-- `getProportionalOverdueness` of `useStudyQueue.ts`: elapsed time since
`lastSeen` divided by the interval duration; `none` models the JS
`Infinity` returned for never-studied cards, an interval label missing
from the catalog, or an unparseable `lastSeen`. -/
def getProportionalOverdueness (dateTime : String → Option Int) (card : Card)
    (now : Int) : Option ℚ :=
  match card.lastSeen, card.currentStudyInterval with
  | some ls, some ci =>
    if ls == "" || ci == "" then none
    else
      match intervalMapGet ci with
      | none => none
      | some intervalMs =>
        if intervalMs == 0 then none
        else
          match dateTime ls with
          | none => none
          | some lastSeenTime => some (((now - lastSeenTime : Int) : ℚ) / (intervalMs : ℚ))
  | _, _ => none

/-- The due filter of `calculateStudyQueue`: never-studied, catalog-unknown
interval, unparseable `lastSeen`, or `now >= lastSeen + intervalMs`. -/
def isOverdue (dateTime : String → Option Int) (now : Int) (card : Card) : Bool :=
  match card.lastSeen, card.currentStudyInterval with
  | some ls, some ci =>
    if ls == "" || ci == "" then true
    else
      match intervalMapGet ci with
      | none => true
      | some intervalMs =>
        if intervalMs == 0 then true
        else
          match dateTime ls with
          | none => true
          | some lastSeenTime => decide (now ≥ lastSeenTime + intervalMs)
  | _, _ => true

/-- The noisy score of one due card: `Infinity` (`none`) is kept as is;
a finite proportional overdueness is multiplied by
`rand * (max - min) + min` where `min = 1 - fuzz`, `max = 1 + fuzz` and
`rand card.id` models the uniform `Math.random()` draw made for this card
in this computation. -/
def noisyScore (dateTime : String → Option Int) (fuzz : ℚ) (rand : String → ℚ)
    (now : Int) (card : Card) : Option ℚ :=
  match getProportionalOverdueness dateTime card now with
  | none => none
  | some po =>
    let lo := 1 - fuzz
    let hi := 1 + fuzz
    some (po * (rand card.id * (hi - lo) + lo))

/-- Lookup in the `noisyScores` Map keyed by card id: the Map is built
over the due cards in order, so a duplicate id keeps the last write.  The
comparator only ever queries ids of due cards, where the lookup is
total. -/
def noisyScoresGet (dateTime : String → Option Int) (fuzz : ℚ) (rand : String → ℚ)
    (now : Int) (overdueCards : List Card) (id : String) : Option ℚ :=
  match overdueCards.reverse.find? (fun c => c.id == id) with
  | some c => noisyScore dateTime fuzz rand now c
  | none => none

/-- The sort comparator of `calculateStudyQueue` as a boolean
`comparator(a, b) <= 0` relation: priority level ascending first; within a
tier equal scores compare equal, `Infinity` sorts before any finite value
on either side, and finite scores compare descending. -/
def studySortLE (scores : String → Option ℚ) (a b : Card) : Bool :=
  if a.priorityLevel = b.priorityLevel then
    match scores a.id, scores b.id with
    | none, none => true
    | none, some _ => true
    | some _, none => false
    | some x, some y => decide (y ≤ x)
  else decide (a.priorityLevel < b.priorityLevel)

/-- The due cards in study order: filter by `isOverdue`, then stable-sort
by the comparator (JS `Array.prototype.sort` is stable; `mergeSort` is the
matching stable sort). -/
def sortedOverdueCards (dateTime : String → Option Int) (fuzz : ℚ)
    (rand : String → ℚ) (cards : List Card) (now : Int) : List Card :=
  let overdueCards := cards.filter (isOverdue dateTime now)
  overdueCards.mergeSort
    (studySortLE (noisyScoresGet dateTime fuzz rand now overdueCards))

/-- `calculateStudyQueue` of `useStudyQueue.ts` (noisy revision): the ids
of the due cards in study order; empty input short-circuits. -/
def calculateStudyQueue (dateTime : String → Option Int) (fuzz : ℚ)
    (rand : String → ℚ) (cards : List Card) (now : Int) : List String :=
  if cards.isEmpty then []
  else (sortedOverdueCards dateTime fuzz rand cards now).map (·.id)

/-- The assumptions the source makes of `generateUniqueId`: distinct calls
return distinct ids, ids are never empty, and a generated id never
collides with a string stored in a sheet cell. -/
def FreshGen (gen : Nat → String) (rows : List Row) : Prop :=
  (∀ i j, i ≠ j → gen i ≠ gen j) ∧
  (∀ n, gen n ≠ "") ∧
  (∀ (n : Nat) (row : Row), row ∈ rows → ∀ s : String, some s ∈ row → gen n ≠ s)

/-- Invariant threaded through the per-row loop of `loadCardsFromSheet`. -/
structure LoadInvariant (gen : Nat → String) (rows : List Row) (m : ColumnMapping)
    (st : LoadState) : Prop where
  nodup : (st.cards.map (·.id)).Nodup
  subsetSeen : ∀ c ∈ st.cards, c.id ∈ st.seenIds
  nonempty : ∀ c ∈ st.cards, c.id ≠ ""
  seenSrc : ∀ s ∈ st.seenIds,
    (∃ k, k < st.genCount ∧ s = gen k) ∨ ∃ row ∈ rows, some s ∈ row
  updCol : ∀ w ∈ st.updates,
    (∃ ic, m.ID = some ic ∧ w.col = ic) ∧ ∃ c ∈ st.cards, w.value = some c.id

/-- Score comparison with `Infinity` (`none`) as the top element:
`scoreGE x y` says x sorts at or before y within a priority tier. -/
def scoreGE : Option ℚ → Option ℚ → Prop
  | none, _ => True
  | some _, none => False
  | some x, some y => y ≤ x

/-! ## Theorems -/

/-- C1: for a write via `updateCardInSheet`, and for an item processed by
`batchUpdateCards`, when the column mapping contains an `Updated` column
and both timestamps are present and parse: a remote `Updated` value
chronologically greater than or equal to the local `updatedAt` means no
remote cell is mutated for that item, while a strictly earlier remote
value means the write proceeds with the full set of cell writes. -/
theorem updateCardInSheet_conflict_rule :
    (∀ (dateTime : String → Option Int) (m : ColumnMapping) (rows : List Row)
       (card : Card) (uc n : Nat) (r l : String) (tr tl : Int),
       m.Updated = some uc →
       findRowForCard m rows card = some n →
       getCell (getSheetRow rows n) uc = some r → r ≠ "" →
       card.updatedAt = some l → l ≠ "" →
       dateTime r = some tr → dateTime l = some tl →
       (tl ≤ tr → updateCardInSheet dateTime m rows card = .ok []) ∧
       (tr < tl → updateCardInSheet dateTime m rows card = .ok (cardWrites m n card))) ∧
    (∀ (dateTime : String → Option Int) (m : ColumnMapping) (rows : List Row)
       (u : PendingCardUpdate) (uc ic i : Nat) (r l : String) (tr tl : Int),
       m.Updated = some uc → m.ID = some ic →
       rows.findIdx? (fun row => jsString (getCell row ic) == u.id) = some i →
       getCell (rows.getD i []) uc = some r → r ≠ "" →
       u.updatedAt = some l → l ≠ "" →
       dateTime r = some tr → dateTime l = some tl →
       (tl ≤ tr → batchItemData dateTime m rows u = []) ∧
       (tr < tl → batchItemData dateTime m rows u =
         addUpdate m.lastSeen (i + 2) u.lastSeen ++
         addUpdate m.Interval (i + 2) u.currentStudyInterval ++
         addUpdate m.ID (i + 2) (some u.id) ++
         addUpdate m.Updated (i + 2) u.updatedAt)) := by
  constructor
  · intro dateTime m rows card uc n r l tr tl hU hF hR hr hL hl hdr hdl
    constructor
    · intro hge
      simp only [updateCardInSheet, hF, hU, hR, hL, truthy, jsDateTime, jsGE, hdr, hdl]
      simp [hr, hl, hge]
    · intro hlt
      simp only [updateCardInSheet, hF, hU, hR, hL, truthy, jsDateTime, jsGE, hdr, hdl]
      simp [hr, hl, not_le.mpr hlt]
  · intro dateTime m rows u uc ic i r l tr tl hU hI hF hR hr hL hl hdr hdl
    constructor
    · intro hge
      simp only [batchItemData, hI, hF, hU, hR, hL, truthy, jsDateTime, jsGE, hdr, hdl]
      simp [hr, hl, hge]
    · intro hlt
      simp only [batchItemData, hI, hF, hU, hR, hL, truthy, jsDateTime, jsGE, hdr, hdl]
      simp [hr, hl, not_le.mpr hlt]

/-- Witness for C1: a concrete skip (remote 100 at or after local 50) and
a concrete proceeding write (remote 100 before local 200). -/
theorem updateCardInSheet_conflict_rule_witness :
    updateCardInSheet (fun s => parseIntJS (some s))
      { Front := 0, Back := 1, Updated := some 2, ID := some 3 }
      [[some "Front A", some "Back A", some "100", some "123"]]
      { id := "123", front := "Front A", back := "Back A", category := "G",
        currentStudyInterval := some "1d", lastSeen := some "7", priorityLevel := 0,
        updatedAt := some "50", status := none } = .ok [] ∧
    batchItemData (fun s => parseIntJS (some s))
      { Front := 0, Back := 1, Updated := some 2, ID := some 3 }
      [[some "Front A", some "Back A", some "100", some "123"]]
      ⟨"123", some "7", none, some "200"⟩ =
      [⟨3, 2, some "123"⟩, ⟨2, 2, some "200"⟩] := by
  constructor
  · exact (updateCardInSheet_conflict_rule.1 (fun s => parseIntJS (some s))
      { Front := 0, Back := 1, Updated := some 2, ID := some 3 }
      [[some "Front A", some "Back A", some "100", some "123"]]
      { id := "123", front := "Front A", back := "Back A", category := "G",
        currentStudyInterval := some "1d", lastSeen := some "7", priorityLevel := 0,
        updatedAt := some "50", status := none }
      2 2 "100" "50" 100 50 rfl (by decide) rfl (by decide) rfl (by decide)
      (by decide) (by decide)).1 (by decide)
  · have h := (updateCardInSheet_conflict_rule.2 (fun s => parseIntJS (some s))
      { Front := 0, Back := 1, Updated := some 2, ID := some 3 }
      [[some "Front A", some "Back A", some "100", some "123"]]
      ⟨"123", some "7", none, some "200"⟩
      2 3 0 "100" "200" 100 200 rfl rfl (by decide) rfl (by decide) rfl (by decide)
      (by decide) (by decide)).2 (by decide)
    rw [h]; rfl

/-- C2: on process start, a non-empty persisted Active Save Queue is
folded into the Pending Update backlog entry by entry (a recovered entry
replaces any backlog entry with the same id) and the Active Save Queue is
cleared; from an empty backlog the new backlog is exactly the recovered
entries. -/
theorem recoverStrandedQueue_spec :
    ∀ (initialBacklog : List PendingCardUpdate) (strandedItems : List Card),
      strandedItems ≠ [] →
      ((recoverStrandedQueue initialBacklog strandedItems).2 = [] ∧
       (∀ p, p ∈ (recoverStrandedQueue initialBacklog strandedItems).1 ↔
         (p ∈ strandedItems.map toPendingCardUpdate ∨
          (p ∈ initialBacklog ∧ ∀ c ∈ strandedItems, c.id ≠ p.id))) ∧
       (initialBacklog = [] →
         (recoverStrandedQueue initialBacklog strandedItems).1 =
           strandedItems.map toPendingCardUpdate)) := by
  intro b s hs
  have hne : s.isEmpty = false := by
    cases s with
    | nil => exact absurd rfl hs
    | cons a t => rfl
  refine ⟨by simp [recoverStrandedQueue, hne], ?_, ?_⟩
  · intro p
    simp only [recoverStrandedQueue, hne, Bool.false_eq_true, if_false,
      List.mem_append, List.mem_filter, List.any_eq_true, Bool.not_eq_true',
      List.any_eq_false, List.mem_map, beq_iff_eq]
    constructor
    · rintro (⟨hb, hno⟩ | hr)
      · exact Or.inr ⟨hb, fun c hc => by
          have := hno (toPendingCardUpdate c) ⟨c, hc, rfl⟩
          simpa [toPendingCardUpdate] using this⟩
      · exact Or.inl hr
    · rintro (hr | ⟨hb, hno⟩)
      · exact Or.inr hr
      · refine Or.inl ⟨hb, ?_⟩
        rintro q ⟨c, hc, rfl⟩
        simpa [toPendingCardUpdate] using hno c hc
  · intro hb
    simp [recoverStrandedQueue, hne, hb]

/-- Witness for C2: one stranded card recovered into an initially empty
backlog, leaving the Active Save Queue empty. -/
theorem recoverStrandedQueue_spec_witness :
    ([⟨"a", "f", "b", "g", none, none, 1, none, none⟩] : List Card) ≠ [] ∧
    recoverStrandedQueue [] [⟨"a", "f", "b", "g", none, none, 1, none, none⟩] =
      ([⟨"a", none, none, none⟩], []) := by
  constructor
  · decide
  · have h := recoverStrandedQueue_spec []
      [⟨"a", "f", "b", "g", none, none, 1, none, none⟩] (by decide)
    have h1 := h.1
    have h2 := h.2.2 rfl
    have hsplit : recoverStrandedQueue [] [⟨"a", "f", "b", "g", none, none, 1, none, none⟩] =
        ((recoverStrandedQueue [] [⟨"a", "f", "b", "g", none, none, 1, none, none⟩]).1,
         (recoverStrandedQueue [] [⟨"a", "f", "b", "g", none, none, 1, none, none⟩]).2) := rfl
    rw [hsplit, h1, h2]
    rfl

/-- C3: `updateCardInSheet` signals `RowNotFoundError` exactly when no
row matches the card by ID or by trimmed `(front, back)` content; on that
outcome the deck manager pops the item from the Active Save Queue (and
its durable mirror), removes every backlog entry with the same id, adds
nothing to the backlog, and surfaces the skip message. -/
theorem rowNotFound_terminal_spec :
    (∀ (dateTime : String → Option Int) (m : ColumnMapping) (rows : List Row) (card : Card),
       updateCardInSheet dateTime m rows card = .error .rowNotFound ↔
         ∀ row ∈ rows, matchesById m card.id row = false ∧
           matchesByContent m card row = false) ∧
    (∀ (st : DeckSyncState) (c : Card) (rest : List Card),
       st.saveQueue = c :: rest →
       (processSaveQueueStep st .rowNotFound =
          { st with
            saveQueue := rest
            activeQueueStorage := rest
            backlog := st.backlog.filter (fun p => !(p.id == c.id))
            syncMessage := some "Sync skipped: Card deleted remotely." } ∧
        (∀ p ∈ (processSaveQueueStep st .rowNotFound).backlog, p.id ≠ c.id) ∧
        (∀ p ∈ (processSaveQueueStep st .rowNotFound).backlog, p ∈ st.backlog) ∧
        (processSaveQueueStep st .rowNotFound).syncMessage =
          some "Sync skipped: Card deleted remotely.")) := by
  constructor
  · intro dateTime m rows card
    constructor
    · intro h
      have hF : findRowForCard m rows card = none := by
        cases hF : findRowForCard m rows card with
        | none => rfl
        | some n =>
          exfalso
          simp only [updateCardInSheet, hF] at h
          split at h <;> simp at h
      intro row hrow
      cases hID : m.ID with
      | some ic =>
        simp only [findRowForCard, hID] at hF
        cases hI : rows.findIdx? (fun row => jsString (getCell row ic) == card.id) with
        | some i => simp [hI] at hF
        | none =>
          rw [hI] at hF
          simp only [Option.map_eq_none'] at hF
          constructor
          · have := (List.findIdx?_eq_none_iff.mp hI) row hrow
            simpa [matchesById, hID] using this
          · exact (List.findIdx?_eq_none_iff.mp hF) row hrow
      | none =>
        simp only [findRowForCard, hID, Option.map_eq_none'] at hF
        exact ⟨by simp [matchesById, hID],
          (List.findIdx?_eq_none_iff.mp hF) row hrow⟩
    · intro h
      have hF : findRowForCard m rows card = none := by
        cases hID : m.ID with
        | some ic =>
          have hI : rows.findIdx? (fun row => jsString (getCell row ic) == card.id) = none := by
            rw [List.findIdx?_eq_none_iff]
            intro row hrow
            have := (h row hrow).1
            simpa [matchesById, hID] using this
          have hC : rows.findIdx? (matchesByContent m card) = none := by
            rw [List.findIdx?_eq_none_iff]
            intro row hrow
            exact (h row hrow).2
          simp [findRowForCard, hID, hI, hC]
        | none =>
          have hC : rows.findIdx? (matchesByContent m card) = none := by
            rw [List.findIdx?_eq_none_iff]
            intro row hrow
            exact (h row hrow).2
          simp [findRowForCard, hID, hC]
      simp [updateCardInSheet, hF]
  · intro st c rest hsq
    rcases st with ⟨sq, aq, bl, msg⟩
    simp only at hsq
    subst hsq
    refine ⟨rfl, ?_, ?_, rfl⟩
    · intro p hp
      simp only [processSaveQueueStep, List.mem_filter, Bool.not_eq_true',
        beq_eq_false_iff_ne, ne_eq] at hp
      exact hp.2
    · intro p hp
      simp only [processSaveQueueStep, List.mem_filter] at hp
      exact hp.1

/-- Witness for C3: a card absent from a one-row sheet makes the write
fail with `RowNotFoundError`, and the step on that outcome drops the
matching backlog entry while keeping the other and surfaces the skip
message. -/
theorem rowNotFound_terminal_spec_witness :
    updateCardInSheet (fun s => parseIntJS (some s))
      { Front := 0, Back := 1, ID := some 2 }
      [[some "other front", some "other back", some "zzz"]]
      { id := "x", front := "f", back := "b", category := "G",
        currentStudyInterval := none, lastSeen := none, priorityLevel := 0,
        updatedAt := none, status := none } = .error .rowNotFound ∧
    processSaveQueueStep
      ⟨[⟨"x", "f", "b", "G", none, none, 0, none, none⟩],
       [⟨"x", "f", "b", "G", none, none, 0, none, none⟩],
       [⟨"x", none, none, none⟩, ⟨"y", none, none, none⟩], none⟩ .rowNotFound =
      ⟨[], [], [⟨"y", none, none, none⟩],
       some "Sync skipped: Card deleted remotely."⟩ := by
  constructor
  · exact (rowNotFound_terminal_spec.1 (fun s => parseIntJS (some s))
      { Front := 0, Back := 1, ID := some 2 }
      [[some "other front", some "other back", some "zzz"]]
      { id := "x", front := "f", back := "b", category := "G",
        currentStudyInterval := none, lastSeen := none, priorityLevel := 0,
        updatedAt := none, status := none }).mpr (by decide)
  · have h := (rowNotFound_terminal_spec.2
      ⟨[⟨"x", "f", "b", "G", none, none, 0, none, none⟩],
       [⟨"x", "f", "b", "G", none, none, 0, none, none⟩],
       [⟨"x", none, none, none⟩, ⟨"y", none, none, none⟩], none⟩
      ⟨"x", "f", "b", "G", none, none, 0, none, none⟩ [] rfl).1
    rw [h]; rfl

/-- C6 counterexample: with a schema containing a `Status` column, the
single-item write issues a `Status` cell write that the batch write does
not, so the two write sets target different column sets for the same
located row. -/
theorem batchUpdate_status_column_cex :
    updateCardInSheet (fun s => parseIntJS (some s))
      { Front := 0, Back := 1, lastSeen := some 2, Interval := some 3,
        Status := some 4, ID := some 5, Updated := some 6 }
      [[some "f", some "b", none, none, some "Active", some "123", none]]
      { id := "123", front := "f", back := "b", category := "G",
        currentStudyInterval := some "1d", lastSeen := some "100",
        priorityLevel := 0, updatedAt := some "200", status := some "Active" } =
      .ok [⟨2, 2, some "100"⟩, ⟨3, 2, some "1d"⟩, ⟨4, 2, some "Active"⟩,
           ⟨5, 2, some "123"⟩, ⟨6, 2, some "200"⟩] ∧
    batchUpdateCards (fun s => parseIntJS (some s))
      { Front := 0, Back := 1, lastSeen := some 2, Interval := some 3,
        Status := some 4, ID := some 5, Updated := some 6 }
      [[some "f", some "b", none, none, some "Active", some "123", none]]
      [⟨"123", some "100", some "1d", some "200"⟩] =
      [⟨2, 2, some "100"⟩, ⟨3, 2, some "1d"⟩, ⟨5, 2, some "123"⟩, ⟨6, 2, some "200"⟩] ∧
    [2, 3, 4, 5, 6] ≠ [2, 3, 5, 6] := by
  exact ⟨rfl, rfl, by decide⟩

/-- C6 (amended): per item, `batchUpdateCards` applies the same conflict
check as `updateCardInSheet` and writes the same columns except `Status`
(which only the single write sets): with the `Status` column absent the
located-row writes coincide exactly, and an item whose row is not found
by ID contributes nothing. -/
theorem batchUpdate_refines_single_update :
    ∀ (dateTime : String → Option Int) (m : ColumnMapping) (rows : List Row)
      (u : PendingCardUpdate) (card : Card) (ic : Nat),
      m.ID = some ic →
      card.id = u.id → card.lastSeen = u.lastSeen →
      card.currentStudyInterval = u.currentStudyInterval →
      card.updatedAt = u.updatedAt →
      ((rows.findIdx? (fun row => jsString (getCell row ic) == u.id) = none →
          batchItemData dateTime m rows u = []) ∧
       (∀ i, rows.findIdx? (fun row => jsString (getCell row ic) == u.id) = some i →
          updateCardInSheet dateTime { m with Status := none } rows card =
            .ok (batchItemData dateTime m rows u))) := by
  intro dateTime m rows u card ic hID hid hls hci hua
  obtain ⟨mFront, mBack, mCat, mPri, mLS, mIv, mSt, mID, mUp⟩ := m
  have hID2 : mID = some ic := hID
  subst hID2
  constructor
  · intro hnone
    simp [batchItemData, hnone]
  · intro i hI
    have hF : findRowForCard
        ⟨mFront, mBack, mCat, mPri, mLS, mIv, none, some ic, mUp⟩ rows card =
        some (i + 2) := by
      simp only [findRowForCard, hid, hI]
    have hrow : getSheetRow rows (i + 2) = rows.getD i [] := by
      simp [getSheetRow]
    simp only [updateCardInSheet, hF, batchItemData, hI, hrow, hid, hls, hci, hua]
    cases mUp with
    | none => simp [cardWrites, addUpdate, hls, hci, hid, hua]
    | some uc =>
      simp only [cardWrites, addUpdate, hls, hci, hid, hua]
      by_cases h1 : truthy u.updatedAt = true
      · by_cases h2 : truthy (getCell (rows.getD i []) uc) = true
        · have h2x := h2
          rw [List.getD_eq_getElem?_getD] at h2x
          simp [h1, h2, h2x]
          split <;> simp [*]
        · have h2f : truthy (getCell (rows.getD i []) uc) = false := by
            simpa using h2
          have h2x := h2f
          rw [List.getD_eq_getElem?_getD] at h2x
          simp [h1, h2f, h2x]
      · have h1f : truthy u.updatedAt = false := by simpa using h1
        simp [h1f]

/-- Witness for C6 (amended): a concrete located row on which the
single-item write over the Status-free schema issues exactly the batch
item writes. -/
theorem batchUpdate_refines_single_update_witness :
    updateCardInSheet (fun s => parseIntJS (some s))
      { Front := 0, Back := 1, lastSeen := some 2, Interval := some 3,
        Status := none, ID := some 5, Updated := some 6 }
      [[some "f", some "b", none, none, some "Active", some "123", none]]
      { id := "123", front := "f", back := "b", category := "G",
        currentStudyInterval := some "1d", lastSeen := some "100",
        priorityLevel := 0, updatedAt := some "200", status := some "Active" } =
      .ok (batchItemData (fun s => parseIntJS (some s))
        { Front := 0, Back := 1, lastSeen := some 2, Interval := some 3,
          Status := some 4, ID := some 5, Updated := some 6 }
        [[some "f", some "b", none, none, some "Active", some "123", none]]
        ⟨"123", some "100", some "1d", some "200"⟩) := by
  exact (batchUpdate_refines_single_update (fun s => parseIntJS (some s))
    { Front := 0, Back := 1, lastSeen := some 2, Interval := some 3,
      Status := some 4, ID := some 5, Updated := some 6 }
    [[some "f", some "b", none, none, some "Active", some "123", none]]
    ⟨"123", some "100", some "1d", some "200"⟩
    { id := "123", front := "f", back := "b", category := "G",
      currentStudyInterval := some "1d", lastSeen := some "100",
      priorityLevel := 0, updatedAt := some "200", status := some "Active" }
    5 rfl rfl rfl rfl rfl).2 0 (by decide)

/-- C7 counterexample: the column mapper has no alias for `Priority` -
with headers `Front, Back, Learning Order` the `Priority` field stays
unmapped and a data row with the value 3 in the third column loads with
the unset default `Number.MAX_SAFE_INTEGER`, not 3. -/
theorem priority_learning_order_cex :
    getColumnMapping ["Front", "Back", "Learning Order"] =
      .ok { Front := 0, Back := 1 } ∧
    ColumnMapping.Priority { Front := 0, Back := 1 } = none ∧
    ((loadCardsFromSheet { Front := 0, Back := 1 }
        [[some "f", some "b", some "3"]] (fun n => "G" ++ toString n)).1.map
        (·.priorityLevel)) = [maxSafeInteger] ∧
    maxSafeInteger ≠ 3 := by
  exact ⟨rfl, rfl, rfl, by decide⟩

/-- C7 (amended): `Priority` is resolved only from a header whose trimmed
text is exactly `Priority`; with headers `Front, Back, Priority` a row
with value 3 loads as `priorityLevel = 3`, and in general the mapped
`Priority` index is exactly the exact-header lookup. -/
theorem getColumnMapping_priority_exact_header :
    (getColumnMapping ["Front", "Back", "Priority"] =
      .ok { Front := 0, Back := 1, Priority := some 2 }) ∧
    (((loadCardsFromSheet { Front := 0, Back := 1, Priority := some 2 }
        [[some "f", some "b", some "3"]] (fun n => "G" ++ toString n)).1.map
        (·.priorityLevel)) = [3]) ∧
    (∀ (headers : List String) (m : ColumnMapping),
       getColumnMapping headers = .ok m →
       m.Priority = headerIndex headers "Priority") := by
  refine ⟨rfl, rfl, ?_⟩
  intro headers m h
  simp only [getColumnMapping] at h
  split at h
  · exact absurd h (by simp)
  · split at h
    · injection h with h2
      subst h2
      rfl
    · exact absurd h (by simp)

/-- Witness for C7 (amended): the exact-header lookup fact applied to the
scenario headers. -/
theorem getColumnMapping_priority_exact_header_witness :
    getColumnMapping ["Front", "Back", "Learning Order"] =
      .ok { Front := 0, Back := 1 } ∧
    ColumnMapping.Priority { Front := 0, Back := 1 } =
      headerIndex ["Front", "Back", "Learning Order"] "Priority" :=
  ⟨rfl, getColumnMapping_priority_exact_header.2.2
    ["Front", "Back", "Learning Order"] { Front := 0, Back := 1 } rfl⟩

/-- C9 counterexample: at the duration of the `infinite` sentinel the
nearest-match returns `40yr`, whose distance is the full gap to its only
neighbor, exceeding half that gap. -/
theorem findClosestInterval_infinite_cex :
    intervalMapGet "infinite" = some 9007199254740991 ∧
    findClosestInterval 9007199254740991 = "40yr" ∧
    intervalMapGet "40yr" = some 1261440000000 ∧
    ¬ (2 * ((9007199254740991 : Int) - 1261440000000).natAbs ≤
        ((9007199254740991 : Int) - 1261440000000).natAbs) := by
  exact ⟨rfl, rfl, rfl, by decide⟩

set_option maxRecDepth 10000 in
/-- C9 (amended): for every catalog interval other than the `infinite`
sentinel, the nearest-match at the interval duration returns that
interval label itself (distance zero, trivially within half the gap to
its neighbors). -/
theorem findClosestInterval_roundtrip :
    ∀ i ∈ STUDY_INTERVALS, i.label ≠ "infinite" →
      findClosestInterval i.ms = i.label := by
  decide

/-- Witness for C9 (amended): the round-trip at the `1d` interval. -/
theorem findClosestInterval_roundtrip_witness :
    (⟨"1d", 86400000⟩ : StudyInterval) ∈ STUDY_INTERVALS ∧
    findClosestInterval 86400000 = "1d" :=
  ⟨by decide, findClosestInterval_roundtrip ⟨"1d", 86400000⟩ (by decide) (by decide)⟩

/-- C10 (implicit): the last-writer-wins check fires only when both
timestamps are present - with an `Updated` column mapped but an empty or
missing remote `Updated` cell, or a falsy local `updatedAt`, both the
single write and the batch item skip the comparison and write the located
row unconditionally. -/
theorem conflict_requires_both_timestamps :
    (∀ (dateTime : String → Option Int) (m : ColumnMapping) (rows : List Row)
       (card : Card) (uc n : Nat),
       m.Updated = some uc →
       findRowForCard m rows card = some n →
       (truthy (getCell (getSheetRow rows n) uc) = false ∨ truthy card.updatedAt = false) →
       updateCardInSheet dateTime m rows card = .ok (cardWrites m n card)) ∧
    (∀ (dateTime : String → Option Int) (m : ColumnMapping) (rows : List Row)
       (u : PendingCardUpdate) (uc ic i : Nat),
       m.Updated = some uc → m.ID = some ic →
       rows.findIdx? (fun row => jsString (getCell row ic) == u.id) = some i →
       (truthy (getCell (rows.getD i []) uc) = false ∨ truthy u.updatedAt = false) →
       batchItemData dateTime m rows u =
         addUpdate m.lastSeen (i + 2) u.lastSeen ++
         addUpdate m.Interval (i + 2) u.currentStudyInterval ++
         addUpdate m.ID (i + 2) (some u.id) ++
         addUpdate m.Updated (i + 2) u.updatedAt) := by
  constructor
  · intro dateTime m rows card uc n hU hF h
    simp only [updateCardInSheet, hF, hU]
    rcases h with h | h <;> simp [h]
  · intro dateTime m rows u uc ic i hU hI hF h
    simp only [batchItemData, hI, hF, hU]
    rcases h with h | h
    · simp only [List.getD_eq_getElem?_getD] at h
      simp [h]
    · simp [h]

/-- Witness for C10: an empty remote `Updated` cell lets the single write
proceed, and a missing local `updatedAt` lets a batch item proceed. -/
theorem conflict_requires_both_timestamps_witness :
    updateCardInSheet (fun s => parseIntJS (some s))
      { Front := 0, Back := 1, Updated := some 2, ID := some 3 }
      [[some "Front A", some "Back A", none, some "123"]]
      { id := "123", front := "Front A", back := "Back A", category := "G",
        currentStudyInterval := some "1d", lastSeen := some "7", priorityLevel := 0,
        updatedAt := some "200", status := none } =
      .ok [⟨3, 2, some "123"⟩, ⟨2, 2, some "200"⟩] ∧
    batchItemData (fun s => parseIntJS (some s))
      { Front := 0, Back := 1, Updated := some 2, ID := some 3 }
      [[some "Front A", some "Back A", some "100", some "123"]]
      ⟨"123", some "7", none, none⟩ =
      [⟨3, 2, some "123"⟩, ⟨2, 2, none⟩] := by
  refine ⟨?_, ?_⟩
  · have h := conflict_requires_both_timestamps.1 (fun s => parseIntJS (some s))
      { Front := 0, Back := 1, Updated := some 2, ID := some 3 }
      [[some "Front A", some "Back A", none, some "123"]]
      { id := "123", front := "Front A", back := "Back A", category := "G",
        currentStudyInterval := some "1d", lastSeen := some "7", priorityLevel := 0,
        updatedAt := some "200", status := none } 2 2 rfl (by decide) (Or.inl (by decide))
    rw [h]; rfl
  · have h := conflict_requires_both_timestamps.2 (fun s => parseIntJS (some s))
      { Front := 0, Back := 1, Updated := some 2, ID := some 3 }
      [[some "Front A", some "Back A", some "100", some "123"]]
      ⟨"123", some "7", none, none⟩ 2 3 0 rfl rfl (by decide) (Or.inr (by decide))
    rw [h]; rfl

theorem getCell_mem {row : Row} {i : Nat} {s : String} (h : getCell row i = some s) :
    some s ∈ row := by
  unfold getCell at h
  rw [List.getD_eq_getElem?_getD] at h
  cases hg : row[i]? with
  | none => rw [hg] at h; simp at h
  | some c =>
    rw [hg] at h
    simp only [Option.getD_some] at h
    subst h
    exact List.getElem?_mem hg

theorem contains_iff_mem {l : List String} {s : String} :
    l.contains s = true ↔ s ∈ l := by
  simp [List.contains_iff_exists_mem_beq]

theorem gen_fresh_of_seenSrc {gen : Nat → String} {rows : List Row}
    (hf : FreshGen gen rows) {seen : List String} {genCount : Nat}
    (hsrc : ∀ s ∈ seen, (∃ k, k < genCount ∧ s = gen k) ∨ ∃ row ∈ rows, some s ∈ row)
    {cnt : Nat} (hcnt : genCount ≤ cnt) : gen cnt ∉ seen := by
  intro hmem
  rcases hsrc _ hmem with ⟨k, hk, hs⟩ | ⟨row, hrow, hcell⟩
  · exact hf.1 cnt k (by omega) hs
  · exact hf.2.2 cnt row hrow (gen cnt) hcell rfl

theorem assignId_fresh {gen : Nat → String} {rows : List Row}
    (hf : FreshGen gen rows) (seen : List String) (genCount : Nat) (idCell : Cell)
    (hsrc : ∀ s ∈ seen, (∃ k, k < genCount ∧ s = gen k) ∨ ∃ row ∈ rows, some s ∈ row)
    (hcell : ∀ s : String, idCell = some s → ∃ row ∈ rows, some s ∈ row) :
    (assignId gen seen genCount idCell).1 ∉ seen ∧
    (assignId gen seen genCount idCell).1 ≠ "" ∧
    genCount ≤ (assignId gen seen genCount idCell).2.2 ∧
    ((∃ k, k < (assignId gen seen genCount idCell).2.2 ∧
        (assignId gen seen genCount idCell).1 = gen k) ∨
      ∃ row ∈ rows, some (assignId gen seen genCount idCell).1 ∈ row) := by
  unfold assignId
  by_cases ht : truthy idCell = true
  · obtain ⟨s0, hs0⟩ : ∃ s0, idCell = some s0 := by
      cases hc : idCell with
      | none => rw [hc] at ht; simp [truthy] at ht
      | some s => exact ⟨s, rfl⟩
    have hs0ne : s0 ≠ "" := by
      rw [hs0] at ht
      simpa [truthy] using ht
    subst hs0
    simp only [ht, if_true, jsString]
    by_cases hcont : seen.contains s0 = true
    · simp only [hcont, if_true]
      refine ⟨gen_fresh_of_seenSrc hf hsrc (le_refl genCount), hf.2.1 genCount, by omega,
        Or.inl ⟨genCount, by omega, rfl⟩⟩
    · simp only [hcont]
      simp only [Bool.false_eq_true, if_false]
      refine ⟨fun hmem => hcont (contains_iff_mem.mpr hmem), hs0ne, le_refl _,
        Or.inr (hcell s0 rfl)⟩
  · simp only [ht]
    simp only [Bool.false_eq_true, if_false]
    have hnot : gen genCount ∉ seen := gen_fresh_of_seenSrc hf hsrc (le_refl genCount)
    have hcont : seen.contains (gen genCount) = false := by
      cases hc : seen.contains (gen genCount) with
      | false => rfl
      | true => exact absurd (contains_iff_mem.mp hc) hnot
    simp only [hcont, Bool.false_eq_true, if_false]
    exact ⟨hnot, hf.2.1 genCount, by omega, Or.inl ⟨genCount, by omega, rfl⟩⟩

theorem loadInvariant_extend {gen : Nat → String} {rows : List Row} {m : ColumnMapping}
    {st : LoadState} (hinv : LoadInvariant gen rows m st)
    {id : String} {genCount' : Nat} {card : Card} {upd : List CellWrite}
    (hid : card.id = id) (hnotin : id ∉ st.seenIds) (hne : id ≠ "")
    (hmono : st.genCount ≤ genCount')
    (horigin : (∃ k, k < genCount' ∧ id = gen k) ∨ ∃ row ∈ rows, some id ∈ row)
    (hupd : upd = st.updates ∨
      ∃ ic rn, m.ID = some ic ∧ upd = st.updates ++ [⟨ic, rn, some id⟩]) :
    LoadInvariant gen rows m ⟨id :: st.seenIds, genCount', upd, st.cards ++ [card]⟩ := by
  constructor
  · simp only [List.map_append, List.map_cons, List.map_nil]
    rw [List.nodup_append]
    refine ⟨hinv.nodup, List.nodup_singleton _, ?_⟩
    intro x hx hx2
    simp only [List.mem_singleton] at hx2
    subst hx2
    rw [hid] at hx
    obtain ⟨c, hc, hcid⟩ := List.mem_map.mp hx
    exact hnotin (hcid ▸ hinv.subsetSeen c hc)
  · intro c hc
    rcases List.mem_append.mp hc with hc | hc
    · exact List.mem_cons_of_mem _ (hinv.subsetSeen c hc)
    · simp only [List.mem_singleton] at hc
      subst hc
      rw [hid]
      exact List.mem_cons_self _ _
  · intro c hc
    rcases List.mem_append.mp hc with hc | hc
    · exact hinv.nonempty c hc
    · simp only [List.mem_singleton] at hc
      subst hc
      rw [hid]
      exact hne
  · intro s hs
    rcases List.mem_cons.mp hs with hs | hs
    · subst hs
      rcases horigin with ⟨k, hk, he⟩ | hrow
      · exact Or.inl ⟨k, hk, he⟩
      · exact Or.inr hrow
    · rcases hinv.seenSrc s hs with ⟨k, hk, he⟩ | hrow
      · refine Or.inl ⟨k, ?_, he⟩
        show k < genCount'
        omega
      · exact Or.inr hrow
  · intro w hw
    rcases hupd with hupd | ⟨ic, rn, hic, hupd⟩
    · subst hupd
      obtain ⟨h1, c, hc, hv⟩ := hinv.updCol w hw
      exact ⟨h1, c, List.mem_append.mpr (Or.inl hc), hv⟩
    · subst hupd
      rcases List.mem_append.mp hw with hw | hw
      · obtain ⟨h1, c, hc, hv⟩ := hinv.updCol w hw
        exact ⟨h1, c, List.mem_append.mpr (Or.inl hc), hv⟩
      · simp only [List.mem_singleton] at hw
        subst hw
        refine ⟨⟨ic, hic, rfl⟩, card, List.mem_append.mpr (Or.inr (List.mem_singleton.mpr rfl)), ?_⟩
        rw [hid]

theorem loadRowsStep_inv {gen : Nat → String} {rows : List Row} {m : ColumnMapping}
    (hf : FreshGen gen rows) (st : LoadState) (p : Nat × Row) (hrow : p.2 ∈ rows)
    (hinv : LoadInvariant gen rows m st) :
    LoadInvariant gen rows m (loadRowsStep m gen st p) := by
  by_cases hskip :
      (!truthy (getCell p.2 m.Front) || (jsTrim (jsString (getCell p.2 m.Front)) == "")) = true
  · simpa only [loadRowsStep, hskip, if_true] using hinv
  · have hskip2 :
        (!truthy (getCell p.2 m.Front) || (jsTrim (jsString (getCell p.2 m.Front)) == "")) = false := by
      simpa using hskip
    simp only [loadRowsStep, hskip2, Bool.false_eq_true, if_false]
    have hcell : ∀ s : String, getValOpt p.2 m.ID = some s → ∃ row ∈ rows, some s ∈ row := by
      intro s hs
      refine ⟨p.2, hrow, ?_⟩
      cases hmid : m.ID with
      | none => rw [hmid] at hs; simp [getValOpt] at hs
      | some i =>
        rw [hmid] at hs
        simp only [getValOpt] at hs
        exact getCell_mem hs
    obtain ⟨hnotin, hne, hmono, horigin⟩ :=
      assignId_fresh hf st.seenIds st.genCount (getValOpt p.2 m.ID) hinv.seenSrc hcell
    refine loadInvariant_extend hinv rfl hnotin hne hmono horigin ?_
    cases hmid : m.ID with
    | none => exact Or.inl rfl
    | some ic =>
      by_cases hneed : (assignId gen st.seenIds st.genCount (getValOpt p.2 (some ic))).2.1 = true
      · refine Or.inr ⟨ic, p.1 + 2, rfl, ?_⟩
        simp only [hneed, if_true]
      · simp only [Bool.not_eq_true] at hneed
        refine Or.inl ?_
        simp only [hneed, Bool.false_eq_true, if_false]

theorem loadRows_foldl_inv {gen : Nat → String} {rows : List Row} {m : ColumnMapping}
    (hf : FreshGen gen rows) :
    ∀ (l : List (Nat × Row)) (st : LoadState), (∀ p ∈ l, p.2 ∈ rows) →
      LoadInvariant gen rows m st →
      LoadInvariant gen rows m (l.foldl (loadRowsStep m gen) st) := by
  intro l
  induction l with
  | nil => intro st _ hinv; exact hinv
  | cons p t ih =>
    intro st hmem hinv
    exact ih _ (fun q hq => hmem q (List.mem_cons_of_mem _ hq))
      (loadRowsStep_inv hf st p (hmem p (List.mem_cons_self _ _)) hinv)

theorem loadRows_inv {gen : Nat → String} {rows : List Row} {m : ColumnMapping}
    (hf : FreshGen gen rows) : LoadInvariant gen rows m (loadRows m rows gen) := by
  refine loadRows_foldl_inv hf rows.enum ⟨[], 0, [], []⟩ ?_ ?_
  · intro p hp
    exact List.getElem?_mem (List.mem_enum_iff_getElem?.mp hp)
  · exact ⟨List.nodup_nil, by simp, by simp, by simp, by simp⟩

/-- C8 (amended): with a fresh generator, all loaded cards carry pairwise
distinct non-empty ids; when the schema has an ID column every queued
write-back targets that column with an assigned id, batched into one
call whose failure does not change the returned cards; the concrete
duplicate scenario keeps the first occurrence and schedules a write-back
for the second. -/
theorem loadCardsFromSheet_unique_ids :
    (∀ (m : ColumnMapping) (rows : List Row) (gen : Nat → String),
      (∀ i j, i ≠ j → gen i ≠ gen j) →
      (∀ n, gen n ≠ "") →
      (∀ (n : Nat) (row : Row), row ∈ rows → ∀ s : String, some s ∈ row → gen n ≠ s) →
      ((((loadCardsFromSheet m rows gen).1.map (·.id)).Nodup) ∧
       (∀ s ∈ (loadCardsFromSheet m rows gen).1.map (·.id), s ≠ "") ∧
       (∀ ic, m.ID = some ic →
         ∀ w ∈ (loadCardsFromSheet m rows gen).2,
           w.col = ic ∧ ∃ c ∈ (loadRows m rows gen).cards, w.value = some c.id) ∧
       (∀ b : Bool, loadCardsFromSheetResult m rows gen b = (loadCardsFromSheet m rows gen).1))) ∧
    ((loadCardsFromSheet { Front := 0, Back := 1, ID := some 2 }
        [[some "f1", some "b1", some "1"], [some "f2", some "b2", some "1"]]
        (fun n => ⟨List.replicate (n + 1) 'G'⟩)).1.map (·.id) = ["1", "G"] ∧
     (loadCardsFromSheet { Front := 0, Back := 1, ID := some 2 }
        [[some "f1", some "b1", some "1"], [some "f2", some "b2", some "1"]]
        (fun n => ⟨List.replicate (n + 1) 'G'⟩)).2 = [⟨2, 3, some "G"⟩]) := by
  constructor
  · intro m rows gen h1 h2 h3
    have hf : FreshGen gen rows := ⟨h1, h2, h3⟩
    have hinv := @loadRows_inv gen rows m hf
    refine ⟨?_, ?_, ?_, ?_⟩
    · have hsub : ((loadCardsFromSheet m rows gen).1.map (·.id)).Sublist
          ((loadRows m rows gen).cards.map (·.id)) :=
        List.Sublist.map _ (List.filter_sublist _)
      exact hinv.nodup.sublist hsub
    · intro s hs
      obtain ⟨c, hc, hcs⟩ := List.mem_map.mp hs
      have hc2 : c ∈ (loadRows m rows gen).cards := List.mem_of_mem_filter hc
      exact hcs ▸ hinv.nonempty c hc2
    · intro ic hic w hw
      obtain ⟨⟨ic2, hic2, hcol⟩, c, hc, hv⟩ := hinv.updCol w hw
      rw [hic] at hic2
      injection hic2 with hic3
      exact ⟨hic3 ▸ hcol, c, hc, hv⟩
    · intro b
      cases b <;> rfl
  · exact ⟨rfl, rfl⟩

/-- Witness for C8 (amended): the first conjunct applied to the concrete
duplicate-id sheet with the replicate generator. -/
theorem loadCardsFromSheet_unique_ids_witness :
    (((loadCardsFromSheet { Front := 0, Back := 1, ID := some 2 }
        [[some "f1", some "b1", some "1"], [some "f2", some "b2", some "1"]]
        (fun n => ⟨List.replicate (n + 1) 'G'⟩)).1.map (·.id)).Nodup) ∧
    (∀ w ∈ (loadCardsFromSheet { Front := 0, Back := 1, ID := some 2 }
        [[some "f1", some "b1", some "1"], [some "f2", some "b2", some "1"]]
        (fun n => ⟨List.replicate (n + 1) 'G'⟩)).2, w.col = 2) := by
  have h := (loadCardsFromSheet_unique_ids.1 { Front := 0, Back := 1, ID := some 2 }
    [[some "f1", some "b1", some "1"], [some "f2", some "b2", some "1"]]
    (fun n => ⟨List.replicate (n + 1) 'G'⟩)
    (by
      intro i j hij h
      have h2 := congrArg (fun s : String => s.data.length) h
      simp only [List.length_replicate] at h2
      exact hij (by omega))
    (by
      intro n h
      have h2 := congrArg (fun s : String => s.data.length) h
      simp only [List.length_replicate] at h2
      simp at h2)
    (by
      intro n row hrow s hs hgen
      have hd : s.data.head? = some 'G' := by
        have h2 := congrArg (fun t : String => t.data.head?) hgen
        simp only [List.replicate_succ, List.head?_cons] at h2
        exact h2.symm
      simp only [List.mem_cons, List.not_mem_nil, or_false] at hrow
      rcases hrow with h | h <;>
        (subst h
         simp only [List.mem_cons, List.not_mem_nil, or_false,
           Option.some.injEq] at hs
         rcases hs with h | h | h <;>
           (subst h; exact absurd hd (by decide)))))
  refine ⟨h.1, ?_⟩
  intro w hw
  exact (h.2.2.1 2 rfl w hw).1

/-- C8 counterexample: with no ID column in the schema, a generated id is
assigned in memory but the write-back list stays empty, so not every
generated ID is written back to the sheet. -/
theorem loadCards_writeback_requires_id_column_cex :
    ((loadCardsFromSheet { Front := 0, Back := 1 } [[some "f", some "b"]]
        (fun n => ⟨List.replicate (n + 1) 'G'⟩)).1.map (·.id) = ["G"]) ∧
    ((loadCardsFromSheet { Front := 0, Back := 1 } [[some "f", some "b"]]
        (fun n => ⟨List.replicate (n + 1) 'G'⟩)).2 = []) ∧
    ("G" : String) ≠ "" := by
  exact ⟨rfl, rfl, by decide⟩

theorem intervalMapGet_ne_zero {ci : String} {ivl : Int}
    (h : intervalMapGet ci = some ivl) : ivl ≠ 0 := by
  unfold intervalMapGet at h
  cases hf : STUDY_INTERVALS.find? (fun i => i.label == ci) with
  | none => rw [hf] at h; simp at h
  | some p =>
    rw [hf] at h
    simp only [Option.map_some'] at h
    injection h with h2
    subst h2
    have hmem := List.mem_of_find?_eq_some hf
    have : ∀ q ∈ STUDY_INTERVALS, q.ms ≠ 0 := by decide
    exact this p hmem

theorem isOverdue_iff {dateTime : String → Option Int} {now : Int} {c : Card} :
    isOverdue dateTime now c = true ↔
      ((c.lastSeen = none ∨ c.lastSeen = some "") ∨
       (c.currentStudyInterval = none ∨ c.currentStudyInterval = some "") ∨
       (∃ ci, c.currentStudyInterval = some ci ∧ intervalMapGet ci = none) ∨
       (∃ ls, c.lastSeen = some ls ∧ dateTime ls = none) ∨
       (∃ ls ci t ivl, c.lastSeen = some ls ∧ c.currentStudyInterval = some ci ∧
         dateTime ls = some t ∧ intervalMapGet ci = some ivl ∧ now ≥ t + ivl)) := by
  cases hls : c.lastSeen with
  | none => simp [isOverdue, hls]
  | some ls =>
    cases hci : c.currentStudyInterval with
    | none => simp [isOverdue, hci, hls]
    | some ci =>
      simp only [isOverdue, hls, hci]
      by_cases hlse : ls = ""
      · subst hlse
        simp
      · by_cases hcie : ci = ""
        · subst hcie
          simp
        · have hg1 : (ls == "") = false := by simpa using hlse
          have hg2 : (ci == "") = false := by simpa using hcie
          simp only [hg1, hg2, Bool.or_self, Bool.false_eq_true, if_false]
          cases hmap : intervalMapGet ci with
          | none => simp [hmap]
          | some ivl =>
            have hz : (ivl == 0) = false := by
              simpa using intervalMapGet_ne_zero hmap
            simp only [hz, Bool.false_eq_true, if_false]
            cases hdt : dateTime ls with
            | none =>
              constructor
              · intro _
                exact Or.inr (Or.inr (Or.inr (Or.inl ⟨ls, rfl, hdt⟩)))
              · intro _; rfl
            | some t =>
              constructor
              · intro h
                refine Or.inr (Or.inr (Or.inr (Or.inr ⟨ls, ci, t, ivl, rfl, rfl, hdt, hmap, ?_⟩)))
                exact of_decide_eq_true h
              · intro h
                rcases h with (h | h) | (h | h) | ⟨ci2, hci2, hmap2⟩ | ⟨ls2, hls2, hdt2⟩ |
                  ⟨ls2, ci2, t2, ivl2, hls2, hci2, hdt2, hmap2, hcond⟩
                · simp at h
                · injection h with h; exact absurd h hlse
                · simp at h
                · injection h with h; exact absurd h hcie
                · injection hci2 with h; subst h
                  rw [hmap] at hmap2; simp at hmap2
                · injection hls2 with h; subst h
                  rw [hdt] at hdt2; simp at hdt2
                · injection hls2 with h; subst h
                  injection hci2 with h; subst h
                  rw [hdt] at hdt2
                  rw [hmap] at hmap2
                  injection hdt2 with h; subst h
                  injection hmap2 with h; subst h
                  exact decide_eq_true hcond

/-- C4: for pairwise-distinct card ids, the study queue contains exactly
one occurrence of the id of each due card and no other ids, where due is
the fail-open notion of the spec. -/
theorem calculateStudyQueue_due_spec :
    ∀ (dateTime : String → Option Int) (fuzz : ℚ) (rand : String → ℚ)
      (cards : List Card) (now : Int),
      (cards.map (·.id)).Nodup →
      ((calculateStudyQueue dateTime fuzz rand cards now).Nodup ∧
       ∀ i, i ∈ calculateStudyQueue dateTime fuzz rand cards now ↔
         ∃ c, c ∈ cards ∧ c.id = i ∧
           ((c.lastSeen = none ∨ c.lastSeen = some "") ∨
            (c.currentStudyInterval = none ∨ c.currentStudyInterval = some "") ∨
            (∃ ci, c.currentStudyInterval = some ci ∧ intervalMapGet ci = none) ∨
            (∃ ls, c.lastSeen = some ls ∧ dateTime ls = none) ∨
            (∃ ls ci t ivl, c.lastSeen = some ls ∧ c.currentStudyInterval = some ci ∧
              dateTime ls = some t ∧ intervalMapGet ci = some ivl ∧ now ≥ t + ivl))) := by
  intro dateTime fuzz rand cards now hnodup
  by_cases hemp : cards.isEmpty = true
  · have hnil : cards = [] := List.isEmpty_iff.mp hemp
    subst hnil
    constructor
    · simp [calculateStudyQueue]
    · intro i
      simp [calculateStudyQueue]
  · have hq : calculateStudyQueue dateTime fuzz rand cards now =
        (sortedOverdueCards dateTime fuzz rand cards now).map (·.id) := by
      simp [calculateStudyQueue, hemp]
    have hperm : List.Perm ((sortedOverdueCards dateTime fuzz rand cards now).map (·.id))
        ((cards.filter (isOverdue dateTime now)).map (·.id)) :=
      (List.mergeSort_perm _ _).map _
    constructor
    · rw [hq]
      rw [List.Perm.nodup_iff hperm]
      exact hnodup.sublist (List.Sublist.map _ (List.filter_sublist _))
    · intro i
      rw [hq, hperm.mem_iff]
      constructor
      · intro h
        obtain ⟨c, hc, hci⟩ := List.mem_map.mp h
        obtain ⟨hc2, hdue⟩ := List.mem_filter.mp hc
        exact ⟨c, hc2, hci, isOverdue_iff.mp hdue⟩
      · rintro ⟨c, hc, hci, hdue⟩
        exact List.mem_map.mpr ⟨c, List.mem_filter.mpr ⟨hc, isOverdue_iff.mpr hdue⟩, hci⟩

unseal List.merge List.mergeSort in
/-- Witness for C4: a two-card deck with one due card (never studied) and
one not-due card (just studied with a one-day interval). -/
theorem calculateStudyQueue_due_spec_witness :
    (([⟨"a", "fa", "ba", "g", none, none, 1, none, none⟩,
       ⟨"b", "fb", "bb", "g", some "1d", some "0", 1, none, none⟩] :
        List Card).map (·.id)).Nodup ∧
    calculateStudyQueue (fun s => parseIntJS (some s)) 0 (fun _ => 1 / 2)
      [⟨"a", "fa", "ba", "g", none, none, 1, none, none⟩,
       ⟨"b", "fb", "bb", "g", some "1d", some "0", 1, none, none⟩] 1000 = ["a"] := by
  refine ⟨by decide, ?_⟩
  have h := calculateStudyQueue_due_spec (fun s => parseIntJS (some s)) 0 (fun _ => 1 / 2)
    [⟨"a", "fa", "ba", "g", none, none, 1, none, none⟩,
     ⟨"b", "fb", "bb", "g", some "1d", some "0", 1, none, none⟩] 1000 (by decide)
  have hmem := (h.2 "a").mpr
    ⟨⟨"a", "fa", "ba", "g", none, none, 1, none, none⟩, by decide, rfl, Or.inl (Or.inl rfl)⟩
  decide

theorem studySortLE_total (scores : String → Option ℚ) (a b : Card) :
    (studySortLE scores a b || studySortLE scores b a) = true := by
  unfold studySortLE
  by_cases h : a.priorityLevel = b.priorityLevel
  · rw [if_pos h, if_pos h.symm]
    cases ha : scores a.id <;> cases hb : scores b.id
    · simp
    · simp
    · simp
    · rename_i x y
      simp only [Bool.or_eq_true, decide_eq_true_eq]
      exact le_total y x
  · rw [if_neg h, if_neg (fun h2 => h h2.symm)]
    simp only [Bool.or_eq_true, decide_eq_true_eq]
    rcases lt_or_gt_of_ne (fun h2 => h h2) with h2 | h2
    · exact Or.inl h2
    · exact Or.inr h2

theorem studySortLE_trans (scores : String → Option ℚ) (a b c : Card)
    (h1 : studySortLE scores a b = true) (h2 : studySortLE scores b c = true) :
    studySortLE scores a c = true := by
  unfold studySortLE at h1 h2 ⊢
  by_cases hab : a.priorityLevel = b.priorityLevel <;>
    by_cases hbc : b.priorityLevel = c.priorityLevel
  · have hac : a.priorityLevel = c.priorityLevel := hab.trans hbc
    rw [if_pos hab] at h1
    rw [if_pos hbc] at h2
    rw [if_pos hac]
    cases ha : scores a.id with
    | none =>
      cases hc : scores c.id <;> rfl
    | some x =>
      rw [ha] at h1
      cases hc : scores c.id with
      | none =>
        exfalso
        cases hb : scores b.id
        · rw [hb] at h1; simp at h1
        · rw [hb] at h1
          rw [hb, hc] at h2
          simp at h2
      | some z =>
        cases hb : scores b.id
        · rw [hb] at h1; simp at h1
        · rename_i y
          rw [hb] at h1
          rw [hb, hc] at h2
          simp only [decide_eq_true_eq] at h1 h2 ⊢
          exact le_trans h2 h1
  · rw [if_pos hab] at h1
    rw [if_neg hbc] at h2
    have hac : ¬ a.priorityLevel = c.priorityLevel := by
      simp only [decide_eq_true_eq] at h2
      omega
    rw [if_neg hac]
    simp only [decide_eq_true_eq] at h2 ⊢
    omega
  · rw [if_neg hab] at h1
    rw [if_pos hbc] at h2
    have hac : ¬ a.priorityLevel = c.priorityLevel := by
      simp only [decide_eq_true_eq] at h1
      omega
    rw [if_neg hac]
    simp only [decide_eq_true_eq] at h1 ⊢
    omega
  · rw [if_neg hab] at h1
    rw [if_neg hbc] at h2
    simp only [decide_eq_true_eq] at h1 h2
    have hac : ¬ a.priorityLevel = c.priorityLevel := by omega
    rw [if_neg hac]
    simp only [decide_eq_true_eq]
    omega

theorem noisyScoresGet_eq {dateTime : String → Option Int} {fuzz : ℚ}
    {rand : String → ℚ} {now : Int} {overdue : List Card} {a : Card}
    (ha : a ∈ overdue) (huniq : ∀ c ∈ overdue, c.id = a.id → c = a) :
    noisyScoresGet dateTime fuzz rand now overdue a.id =
      noisyScore dateTime fuzz rand now a := by
  unfold noisyScoresGet
  cases hf : overdue.reverse.find? (fun c => c.id == a.id) with
  | none =>
    exfalso
    have hsome : (overdue.reverse.find? (fun c => c.id == a.id)).isSome := by
      rw [List.find?_isSome]
      exact ⟨a, List.mem_reverse.mpr ha, by simp⟩
    rw [hf] at hsome
    simp at hsome
  | some c =>
    have hmem : c ∈ overdue := List.mem_reverse.mp (List.mem_of_find?_eq_some hf)
    have hpred := List.find?_some hf
    have hc : c = a := huniq c hmem (by simpa using hpred)
    rw [hc]

theorem noisyScore_fuzz_zero {dateTime : String → Option Int} {rand : String → ℚ}
    {now : Int} {a : Card} :
    noisyScore dateTime 0 rand now a = getProportionalOverdueness dateTime a now := by
  unfold noisyScore
  cases h : getProportionalOverdueness dateTime a now with
  | none => rfl
  | some po =>
    simp only [Option.some.injEq]
    ring

theorem pair_sublist_of_mem {α : Type} {l : List α} {a b : α}
    (ha : a ∈ l) (hb : b ∈ l) (hne : a ≠ b) :
    List.Sublist [a, b] l ∨ List.Sublist [b, a] l := by
  induction l with
  | nil => cases ha
  | cons x t ih =>
    by_cases hax : a = x
    · subst hax
      have hbt : b ∈ t := by
        rcases List.mem_cons.mp hb with h | h
        · exact absurd h.symm hne
        · exact h
      exact Or.inl (List.Sublist.cons₂ _ (List.singleton_sublist.mpr hbt))
    · by_cases hbx : b = x
      · subst hbx
        have hat : a ∈ t := (List.mem_cons.mp ha).resolve_left hax
        exact Or.inr (List.Sublist.cons₂ _ (List.singleton_sublist.mpr hat))
      · have hat : a ∈ t := (List.mem_cons.mp ha).resolve_left hax
        have hbt : b ∈ t := (List.mem_cons.mp hb).resolve_left hbx
        rcases ih hat hbt with h | h
        · exact Or.inl (List.Sublist.cons _ h)
        · exact Or.inr (List.Sublist.cons _ h)

/-- C5: the queue is ordered by priority level ascending first and noisy
score descending within a tier, with `Infinity` before any finite score
on either side of a comparison; with fuzz 0, among due cards of equal
priority the strictly more overdue one deterministically precedes. -/
theorem calculateStudyQueue_order_spec :
    (∀ (dateTime : String → Option Int) (fuzz : ℚ) (rand : String → ℚ)
       (cards : List Card) (now : Int),
       (sortedOverdueCards dateTime fuzz rand cards now).Pairwise (fun a b =>
         a.priorityLevel < b.priorityLevel ∨
         (a.priorityLevel = b.priorityLevel ∧
           scoreGE
             (noisyScoresGet dateTime fuzz rand now
               (cards.filter (isOverdue dateTime now)) a.id)
             (noisyScoresGet dateTime fuzz rand now
               (cards.filter (isOverdue dateTime now)) b.id))) ∧
       (cards ≠ [] → calculateStudyQueue dateTime fuzz rand cards now =
         (sortedOverdueCards dateTime fuzz rand cards now).map (·.id))) ∧
    (∀ (scores : String → Option ℚ) (a b : Card),
       a.priorityLevel = b.priorityLevel → scores a.id = none →
       studySortLE scores a b = true ∧
       (∀ q, scores b.id = some q → studySortLE scores b a = false)) ∧
    (∀ (dateTime : String → Option Int) (rand : String → ℚ) (cards : List Card)
       (now : Int) (a b : Card),
       (cards.map (·.id)).Nodup → a ∈ cards → b ∈ cards →
       isOverdue dateTime now a = true → isOverdue dateTime now b = true →
       a.priorityLevel = b.priorityLevel →
       ((getProportionalOverdueness dateTime a now = none ∧
           getProportionalOverdueness dateTime b now ≠ none) ∨
        (∃ p q, getProportionalOverdueness dateTime a now = some p ∧
           getProportionalOverdueness dateTime b now = some q ∧ q < p)) →
       List.Sublist [a.id, b.id] (calculateStudyQueue dateTime 0 rand cards now)) := by
  refine ⟨?_, ?_, ?_⟩
  · intro dateTime fuzz rand cards now
    constructor
    · have hsorted := @List.sorted_mergeSort Card
        (studySortLE (noisyScoresGet dateTime fuzz rand now
          (cards.filter (isOverdue dateTime now))))
        (studySortLE_trans _) (studySortLE_total _)
        (cards.filter (isOverdue dateTime now))
      refine hsorted.imp ?_
      intro a b hle
      unfold studySortLE at hle
      by_cases h : a.priorityLevel = b.priorityLevel
      · rw [if_pos h] at hle
        refine Or.inr ⟨h, ?_⟩
        unfold scoreGE
        cases ha : noisyScoresGet dateTime fuzz rand now
            (cards.filter (isOverdue dateTime now)) a.id with
        | none => simp
        | some x =>
          rw [ha] at hle
          cases hb : noisyScoresGet dateTime fuzz rand now
              (cards.filter (isOverdue dateTime now)) b.id with
          | none => rw [hb] at hle; simp at hle
          | some y =>
            rw [hb] at hle
            simpa using hle
      · rw [if_neg h] at hle
        exact Or.inl (by simpa using hle)
    · intro hne
      have hemp : cards.isEmpty = false := by
        cases cards with
        | nil => exact absurd rfl hne
        | cons x t => rfl
      simp [calculateStudyQueue, hemp]
  · intro scores a b hpr hnone
    constructor
    · unfold studySortLE
      rw [if_pos hpr, hnone]
      cases scores b.id <;> rfl
    · intro q hq
      unfold studySortLE
      rw [if_pos hpr.symm, hnone, hq]
  · intro dateTime rand cards now a b hnodup ha hb hdua hdub hpr hgt
    have hane : cards ≠ [] := by
      intro h
      rw [h] at ha
      cases ha
    have hqeq : calculateStudyQueue dateTime 0 rand cards now =
        (sortedOverdueCards dateTime 0 rand cards now).map (·.id) := by
      have hemp : cards.isEmpty = false := by
        cases cards with
        | nil => exact absurd rfl hane
        | cons x t => rfl
      simp [calculateStudyQueue, hemp]
    set overdue := cards.filter (isOverdue dateTime now) with hoverdue
    have ha2 : a ∈ overdue := List.mem_filter.mpr ⟨ha, hdua⟩
    have hb2 : b ∈ overdue := List.mem_filter.mpr ⟨hb, hdub⟩
    have huniqA : ∀ c ∈ overdue, c.id = a.id → c = a := fun c hc he =>
      List.inj_on_of_nodup_map hnodup (List.mem_of_mem_filter hc) ha he
    have huniqB : ∀ c ∈ overdue, c.id = b.id → c = b := fun c hc he =>
      List.inj_on_of_nodup_map hnodup (List.mem_of_mem_filter hc) hb he
    have hsa : noisyScoresGet dateTime 0 rand now overdue a.id =
        getProportionalOverdueness dateTime a now :=
      (noisyScoresGet_eq ha2 huniqA).trans noisyScore_fuzz_zero
    have hsb : noisyScoresGet dateTime 0 rand now overdue b.id =
        getProportionalOverdueness dateTime b now :=
      (noisyScoresGet_eq hb2 huniqB).trans noisyScore_fuzz_zero
    have hne : a ≠ b := by
      intro h
      subst h
      rcases hgt with ⟨h1, h2⟩ | ⟨p, q, h1, h2, h3⟩
      · exact h2 h1
      · rw [h1] at h2
        injection h2 with h2
        subst h2
        exact absurd h3 (lt_irrefl p)
    have hmemA : a ∈ sortedOverdueCards dateTime 0 rand cards now := by
      unfold sortedOverdueCards
      exact List.mem_mergeSort.mpr ha2
    have hmemB : b ∈ sortedOverdueCards dateTime 0 rand cards now := by
      unfold sortedOverdueCards
      exact List.mem_mergeSort.mpr hb2
    have hpairwise := @List.sorted_mergeSort Card
      (studySortLE (noisyScoresGet dateTime 0 rand now overdue))
      (studySortLE_trans _) (studySortLE_total _) overdue
    rcases pair_sublist_of_mem hmemA hmemB hne with hsub | hsub
    · rw [hqeq]
      have := List.Sublist.map (fun c : Card => c.id) hsub
      simpa using this
    · exfalso
      have hpair2 : List.Pairwise (fun x y =>
          studySortLE (noisyScoresGet dateTime 0 rand now overdue) x y = true) [b, a] := by
        refine List.Pairwise.sublist hsub ?_
        exact hpairwise
      have hle : studySortLE (noisyScoresGet dateTime 0 rand now overdue) b a = true := by
        have := List.pairwise_cons.mp hpair2
        exact this.1 a (List.mem_singleton.mpr rfl)
      unfold studySortLE at hle
      rw [if_pos hpr.symm, hsa, hsb] at hle
      rcases hgt with ⟨h1, h2⟩ | ⟨p, q, h1, h2, h3⟩
      · rw [h1] at hle
        cases hpo : getProportionalOverdueness dateTime b now with
        | none => exact h2 hpo
        | some q => rw [hpo] at hle; simp at hle
      · rw [h1, h2] at hle
        simp only [decide_eq_true_eq] at hle
        exact absurd h3 (not_lt.mpr hle)

/-- Witness for C5: two due cards of equal priority, one never studied
(infinite overdueness) and one finitely overdue; the never-studied one
precedes deterministically at fuzz 0. -/
theorem calculateStudyQueue_order_spec_witness :
    getProportionalOverdueness (fun s => parseIntJS (some s))
      (⟨"a", "fa", "ba", "g", none, none, 5, none, none⟩ : Card) 10000 = none ∧
    getProportionalOverdueness (fun s => parseIntJS (some s))
      (⟨"b", "fb", "bb", "g", some "1s", some "0", 5, none, none⟩ : Card) 10000 ≠ none ∧
    List.Sublist ["a", "b"]
      (calculateStudyQueue (fun s => parseIntJS (some s)) 0 (fun _ => 1 / 2)
        [⟨"a", "fa", "ba", "g", none, none, 5, none, none⟩,
         ⟨"b", "fb", "bb", "g", some "1s", some "0", 5, none, none⟩] 10000) := by
  refine ⟨by decide, by decide, ?_⟩
  exact calculateStudyQueue_order_spec.2.2 (fun s => parseIntJS (some s)) (fun _ => 1 / 2)
    [⟨"a", "fa", "ba", "g", none, none, 5, none, none⟩,
     ⟨"b", "fb", "bb", "g", some "1s", some "0", 5, none, none⟩] 10000
    ⟨"a", "fa", "ba", "g", none, none, 5, none, none⟩
    ⟨"b", "fb", "bb", "g", some "1s", some "0", 5, none, none⟩
    (by decide) (by decide) (by decide) (by decide) (by decide) rfl
    (Or.inl ⟨by decide, by decide⟩)

end JantzCard
